import Mathlib

/-!
Verification development for the `go-ipfs-cmds` command-dispatch framework.

The Go sources embedded here are `executor.go` (the `Execute` function) and
`http/handler.go` (the HTTP bridge).  Parts of the library that the
repository snapshot does not include (the request constructor, the channel
response pair, the global encoder table, `GetEncoding`) are modelled from
the specification and are marked as such in their doc comments.
-/

namespace Cmds

/-- Encoding tags are plain strings in the source (`type EncodingType string`). -/
abbrev EncodingType := String

def Text : EncodingType := "text"

def JSON : EncodingType := "json"

def XML : EncodingType := "xml"

def Protobuf : EncodingType := "protobuf"

def CLI : EncodingType := "cli"

/-- Modelled from the spec: the reserved timeout option key (`TimeoutOpt`);
the source file declaring the constant is not under `src/`.  Only its identity
as a fixed key matters here. -/
def TimeoutOpt : String := "timeout"

/-- Modelled from the spec: the reserved encoding-selection key (`EncShort`);
the source file declaring the constant is not under `src/`. -/
def EncShort : String := "enc"

/-- A dynamically typed option value, as stored in `req.Options`
(`map[string]interface{}` in Go). -/
inductive OptValue where
  | str (s : String)
  | int (n : Int)
  | boolV (b : Bool)
deriving DecidableEq, Repr

/-- Association-list lookup, standing in for Go map indexing. -/
def lookupStr {α : Type} : List (String × α) → String → Option α
  | [], _ => none
  | (k2, v) :: rest, k => if k2 = k then some v else lookupStr rest k

/-- The attributes of a `ResponseEmitter` value that `Execute` observes:
whether it implements the `EncodingEmitter` interface, what its `Emit`
method returns when called, and its `reflect.TypeOf(re).String()` name
(used as the `PostRun` map key). -/
structure Emitter where
  isEncodingEmitter : Bool
  emitResult : Option String
  typeName : String
deriving DecidableEq, Repr

/-- The behaviour of a command's `Run` function, abstracted to what the
executor's panic guard can observe: a normal return, a panic whose value
is an `error` (carrying its message), or a panic with a non-error value. -/
inductive RunBehavior where
  | normal
  | panicError (msg : String)
  | panicOther
deriving DecidableEq, Repr

/-- The fields of a `Command` that `Execute` reads.  `encoders` is the
membership function of `cmd.Encoders`; `postRun` maps an emitter type name
to the replacement emitter the registered `PostRun` function returns. -/
structure Command where
  hasRun : Bool
  runBehavior : RunBehavior
  checkArgumentsErr : Option String
  encoders : EncodingType → Bool
  hasPreRun : Bool
  preRunErr : Option String
  postRun : List (String × Emitter)

/-- The fields of a `Request` that `Execute` reads. -/
structure Request where
  command : Command
  options : List (String × OptValue)

/-- Modelled from the spec: `GetEncoding(req)` resolves the caller's
requested encoding tag from `req.Options[EncShort]`, defaulting to `Text`
(spec section 4.4 step 3); the source file defining `GetEncoding` is not
under `src/`. -/
def GetEncoding (req : Request) : EncodingType :=
  match lookupStr req.options EncShort with
  | some (OptValue.str s) => s
  | _ => Text

/-- Which encoder `Execute` installs via `SetEncoder`: one from the
command's own table, one from the global table, or the global JSON
fallback. -/
inductive ChosenEncoder where
  | fromCommand (t : EncodingType)
  | fromGlobal (t : EncodingType)
  | globalJSON
deriving DecidableEq, Repr

/-- Translation of the encoder-selection block of `Execute`
(`executor.go` lines 41-57).  `cmdEncoders` is membership in
`cmd.Encoders`, `globalEncoders` membership in the package-level
`Encoders` table (whose defining file is not under `src/`, so it stays a
parameter). -/
def selectEncoder (cmdEncoders : EncodingType → Bool)
    (globalEncoders : EncodingType → Bool) (encType0 : EncodingType) :
    ChosenEncoder :=
  let encType := if encType0 = Text && !cmdEncoders encType0 then JSON else encType0
  if cmdEncoders encType then ChosenEncoder.fromCommand encType
  else if globalEncoders encType then ChosenEncoder.fromGlobal encType
  else ChosenEncoder.globalJSON

/-- The `error` values `Execute` can return. -/
inductive GoErr where
  | notCallable
  | checkArguments (msg : String)
  | parseDurationFailed (s : String)
  | preRunFailed (msg : String)
  | emitFailed (msg : String)
deriving DecidableEq, Repr

/-- How a call to `Execute` terminates: a normal return carrying `err`,
a Go runtime panic from the unchecked `timeoutStr.(string)` type
assertion (`executor.go` line 60), or a re-raised panic from `Run`. -/
inductive Outcome where
  | ret (e : Option GoErr)
  | panicAssertString
  | panicReraised
deriving DecidableEq, Repr

/-- A `cmdkit.Error` structured error value. -/
structure CmdkitError where
  message : String
  code : Nat
deriving DecidableEq, Repr

def ErrNormal : Nat := 0

/-- What `Execute` did to the emitter: how many times it called `Close`,
which encoder it installed with `SetEncoder` (if any), and the structured
errors its panic guard passed to `Emit`. -/
structure ExecTrace where
  closes : Nat
  encoderSet : Option ChosenEncoder
  emitted : List CmdkitError
deriving DecidableEq, Repr

/-- The emitter that `Run` and the deferred `Close` act on: `Execute`
reassigns `re` to the `PostRun` wrapper's result when one is registered
for the emitter's type name (`executor.go` lines 76-80). -/
def effectiveEmitter (cmd : Command) (re : Emitter) : Emitter :=
  match lookupStr cmd.postRun re.typeName with
  | some reNew => reNew
  | none => re

/-- Translation of `executor.go` lines 82-102, abstracted over the
`Emit` result of the effective emitter and the behaviour of `Run`: the
two deferred functions (`re.Close()` and the panic guard) around
`cmd.Run`.  On a recovered error-valued panic the guard assigns
`err = re.Emit(cmdkit.Error{Message: e.Error(), Code: cmdkit.ErrNormal})`,
so the returned error is the Emit result; a non-error panic value is
re-raised.  Both deferred functions run on every one of these paths, so
`closes = 1` throughout. -/
def runPhaseAux (emitRes : Option String) (encoderSet : Option ChosenEncoder) :
    RunBehavior → Outcome × ExecTrace
  | RunBehavior.normal => (Outcome.ret none, ⟨1, encoderSet, []⟩)
  | RunBehavior.panicError msg =>
    match emitRes with
    | none => (Outcome.ret none, ⟨1, encoderSet, [⟨msg, ErrNormal⟩]⟩)
    | some emsg =>
      (Outcome.ret (some (GoErr.emitFailed emsg)), ⟨1, encoderSet, [⟨msg, ErrNormal⟩]⟩)
  | RunBehavior.panicOther => (Outcome.panicReraised, ⟨1, encoderSet, []⟩)

/-- The `Run` step with its deferred `Close` and panic guard, acting on
the effective (possibly `PostRun`-wrapped) emitter. -/
def runPhase (cmd : Command) (re : Emitter)
    (encoderSet : Option ChosenEncoder) : Outcome × ExecTrace :=
  runPhaseAux (effectiveEmitter cmd re).emitResult encoderSet cmd.runBehavior

/-- Translation of `executor.go` lines 67-72, abstracted over
`cmd.PreRun != nil` and the error it returns: an error from `PreRun` is
returned before the deferred `Close` is installed. -/
def preRunPhaseAux (cmd : Command) (re : Emitter)
    (encoderSet : Option ChosenEncoder) : Bool → Option String → Outcome × ExecTrace
  | true, some msg => (Outcome.ret (some (GoErr.preRunFailed msg)), ⟨0, encoderSet, []⟩)
  | true, none => runPhase cmd re encoderSet
  | false, _ => runPhase cmd re encoderSet

/-- The `PreRun` step of `Execute`. -/
def preRunPhase (cmd : Command) (re : Emitter)
    (encoderSet : Option ChosenEncoder) : Outcome × ExecTrace :=
  preRunPhaseAux cmd re encoderSet cmd.hasPreRun cmd.preRunErr

/-- Translation of `executor.go` lines 59-65, abstracted over the parse
result `parseDuration s` of the string form of the timeout value: a parse
failure is returned before the deferred `Close` is installed. -/
def durationPhase (s : String) (cmd : Command) (re : Emitter)
    (encoderSet : Option ChosenEncoder) : Option Int → Outcome × ExecTrace
  | none => (Outcome.ret (some (GoErr.parseDurationFailed s)), ⟨0, encoderSet, []⟩)
  | some _ => preRunPhase cmd re encoderSet

/-- Translation of `executor.go` lines 59-65, on the looked-up
`req.Options[TimeoutOpt]` value: `timeoutStr.(string)` is an unchecked
type assertion, so a present non-string value panics; a present string
value is parsed as a duration. -/
def timeoutPhase (parseDuration : String → Option Int) (cmd : Command)
    (re : Emitter) (encoderSet : Option ChosenEncoder) :
    Option OptValue → Outcome × ExecTrace
  | none => preRunPhase cmd re encoderSet
  | some (OptValue.str s) => durationPhase s cmd re encoderSet (parseDuration s)
  | some (OptValue.int _) => (Outcome.panicAssertString, ⟨0, encoderSet, []⟩)
  | some (OptValue.boolV _) => (Outcome.panicAssertString, ⟨0, encoderSet, []⟩)

/-- Translation of `(*executor).Execute` (`executor.go` lines 27-102),
assembled from the phase functions above in source order: callable check,
argument check, encoder selection (when the emitter implements
`EncodingEmitter`), timeout, `PreRun`, `PostRun` wrap, deferred `Close`
and panic guard, `Run`.  `parseDuration` stands for the external
`time.ParseDuration` (`none` = parse error); `globalEncoders` for
membership in the package-level `Encoders` table, whose defining file is
not under `src/`. -/
def Execute (parseDuration : String → Option Int)
    (globalEncoders : EncodingType → Bool) (req : Request) (re : Emitter) :
    Outcome × ExecTrace :=
  if !req.command.hasRun then (Outcome.ret (some GoErr.notCallable), ⟨0, none, []⟩)
  else
    match req.command.checkArgumentsErr with
    | some msg => (Outcome.ret (some (GoErr.checkArguments msg)), ⟨0, none, []⟩)
    | none =>
      timeoutPhase parseDuration req.command re
        (if re.isEncodingEmitter then
          some (selectEncoder req.command.encoders globalEncoders (GetEncoding req))
        else none)
        (lookupStr req.options TimeoutOpt)

/-- `true` when the timeout step of `Execute` passes without an early
return or a panic: either no timeout option is present, or it is a string
that parses as a duration. -/
def timeoutStepOk (parseDuration : String → Option Int) (req : Request) : Bool :=
  match lookupStr req.options TimeoutOpt with
  | none => true
  | some (OptValue.str s) => (parseDuration s).isSome
  | some _ => false

/-- `true` when the `PreRun` step passes: no `PreRun` is set, or it
returns no error. -/
def preRunStepOk (cmd : Command) : Bool :=
  !cmd.hasPreRun || cmd.preRunErr.isNone

end Cmds

namespace CmdsHttp

/-- The possible values of the local variable `ctx` in
`internalHandler.ServeHTTP`: the Go zero value of an interface variable
(`var ctx context.Context` leaves it nil), or a cancellable context
derived from the environment's `Context()`. -/
inductive CtxVal where
  | goNil
  | derivedFromEnv
deriving DecidableEq, Repr

/-- The two `ctx` variables in play in the context-setup block of
`internalHandler.ServeHTTP` (`handler.go` lines 137-151): the outer one
declared by `var ctx context.Context`, and the one declared inside the
`if` block.  In Go, `ctx, cancel := context.WithCancel(ctxer.Context())`
uses `:=`, so it declares a NEW `ctx` that shadows the outer variable for
the rest of the block; the outer `ctx` is never written. -/
structure CtxSetup where
  outerCtx : CtxVal
  innerCtx : Option CtxVal
deriving DecidableEq, Repr

/-- Translation of `handler.go` lines 137-151. When the environment
implements the `contexter` interface, the block derives a cancellable
context from it — but binds it to the shadowing inner `ctx`.  In every
case the outer `ctx`, which is all later code can see, keeps its zero
value. -/
def serveHTTPCtxSetup (envHasContexter : Bool) : CtxSetup :=
  if envHasContexter then
    { outerCtx := CtxVal.goNil, innerCtx := some CtxVal.derivedFromEnv }
  else
    { outerCtx := CtxVal.goNil, innerCtx := none }

/-- The parts of `ServerConfig` that the request path reads: the CORS
allowed-origin list and the user-supplied header map. -/
structure ServerConfig where
  allowedOrigins : List String
  headers : List (String × List String)
deriving DecidableEq, Repr

/-- The parts of an incoming HTTP request that the handler reads.
`refererURL` is the result of the external `url.Parse` on the Referer
header, reduced to the `(Scheme, Host)` pair the handler uses (`none` =
parse error).  `parseRequestOk` abstracts `parseRequest`, whose defining
file is not under `src/`. -/
structure HttpRequest where
  origin : String
  referer : String
  refererURL : Option (String × String)
  parseRequestOk : Bool
deriving DecidableEq, Repr

/-- Translation of `allowOrigin` (`handler.go` lines 252-276): an empty
Origin header is always allowed; otherwise some configured origin must be
the wildcard or equal the header. -/
def allowOrigin (origin : String) (cfg : ServerConfig) : Bool :=
  if origin = "" then true
  else cfg.allowedOrigins.any (fun o => o = "*" || o = origin)

/-- Translation of `allowReferer` (`handler.go` lines 282-315): an empty
Referer is always allowed; an unparseable one is rejected; otherwise
`scheme + "://" + host` is matched against the configured origins like an
Origin header. -/
def allowReferer (referer : String) (refererURL : Option (String × String))
    (cfg : ServerConfig) : Bool :=
  if referer = "" then true
  else
    match refererURL with
    | none => false
    | some (scheme, host) =>
      let origin := scheme ++ "://" ++ host
      cfg.allowedOrigins.any (fun o => o = "*" || o = origin)

def ACAOrigin : String := "Access-Control-Allow-Origin"

def ACAMethods : String := "Access-Control-Allow-Methods"

def ACACredentials : String := "Access-Control-Allow-Credentials"

/-- Translation of `skipAPIHeader` (`handler.go` lines 84-95). -/
def skipAPIHeader (h : String) : Bool :=
  if h = ACAOrigin then true
  else if h = ACAMethods then true
  else if h = ACACredentials then true
  else false

/-- How `internalHandler.ServeHTTP` disposes of a request: a 403 written
before parsing, a parse failure (400/404), or a dispatch to
`i.root.Call` carrying the headers written to the response and the
context installed on the parsed request (`req.Context = ctx`). -/
inductive ServeResult where
  | forbidden
  | parseFailed
  | dispatched (writtenHeaders : List (String × List String)) (installedCtx : CtxVal)
deriving DecidableEq, Repr

/-- Translation of `internalHandler.ServeHTTP` (`handler.go` lines
127-192): context setup, the origin/referer check (403 and return on
failure), `parseRequest`, `req.Context = ctx`, then the user-header loop
filtered by `skipAPIHeader`, then the dispatch to `i.root.Call`. -/
def serveHTTP (envHasContexter : Bool) (cfg : ServerConfig)
    (r : HttpRequest) : ServeResult :=
  let ctx := (serveHTTPCtxSetup envHasContexter).outerCtx
  if !(allowOrigin r.origin cfg && allowReferer r.referer r.refererURL cfg) then
    ServeResult.forbidden
  else if !r.parseRequestOk then ServeResult.parseFailed
  else
    ServeResult.dispatched
      (cfg.headers.filter (fun kv => !skipAPIHeader kv.1)) ctx

end CmdsHttp

namespace CmdsModel

/-- The declared type of an option, as exposed by the external option
schema module. -/
inductive OptType where
  | intT
  | stringT
  | boolT
deriving DecidableEq, Repr

/-- An option declaration: its names (primary first, then aliases) and
its declared type. -/
structure OptionDecl where
  names : List String
  type : OptType
deriving DecidableEq, Repr

/-- Modelled from the spec: a base-10 numeric string (spec section 4.2),
the string form an integer option value may take: a non-empty run of
decimal digits. -/
def parseBase10 (s : String) : Option Nat :=
  if s.data = [] then none
  else if s.data.all Char.isDigit then
    some (s.data.foldl (fun acc c => 10 * acc + (c.toNat - 48)) 0)
  else none

/-- Modelled from the spec: value checking and coercion in `NewRequest`
(spec section 4.2); the source file defining `NewRequest` is not under
`src/`.  A value must already be of the declared type or be coercible
from its string form; an integer option accepts an integer or a base-10
numeric string, and a boolean or non-numeric string for it is an
incorrect-type error (`none`). -/
def convertValue (t : OptType) (v : Cmds.OptValue) : Option Cmds.OptValue :=
  match t, v with
  | OptType.intT, Cmds.OptValue.int n => some (Cmds.OptValue.int n)
  | OptType.intT, Cmds.OptValue.str s =>
    (parseBase10 s).map (fun n => Cmds.OptValue.int (Int.ofNat n))
  | OptType.intT, _ => none
  | OptType.stringT, Cmds.OptValue.str s => some (Cmds.OptValue.str s)
  | OptType.stringT, _ => none
  | OptType.boolT, Cmds.OptValue.boolV b => some (Cmds.OptValue.boolV b)
  | OptType.boolT, _ => none

/-- The declaration (if any) whose primary name or alias matches a key. -/
def findOptionDecl (decls : List OptionDecl) (k : String) : Option OptionDecl :=
  decls.find? (fun d => d.names.contains k)

/-- Modelled from the spec: handling of a single options-map entry by
`NewRequest` (spec section 4.2), given the matching declaration (if any):
an unrecognized key is kept as-is; a recognized key has its value checked
and coerced and is normalized to the primary name, failing (`none`) on an
incoercible value. -/
def convertEntry (k : String) (v : Cmds.OptValue) :
    Option OptionDecl → Option (String × Cmds.OptValue)
  | none => some (k, v)
  | some d => (convertValue d.type v).map (fun v2 => (d.names.headD k, v2))

/-- Modelled from the spec: the option-validation pass of `NewRequest`
(spec section 4.2); the source file defining `NewRequest` is not under
`src/`.  Construction fails (`none`) exactly when some recognized key
carries an incoercible value. -/
def convertOptions (decls : List OptionDecl) :
    List (String × Cmds.OptValue) → Option (List (String × Cmds.OptValue))
  | [] => some []
  | (k, v) :: rest =>
    match convertEntry k v (findOptionDecl decls k) with
    | none => none
    | some kv2 => (convertOptions decls rest).map (fun restOut => kv2 :: restOut)

/-- An operation performed by the producer half of a channel response
pair. -/
inductive EmitterOp where
  | setLength (n : Nat)
  | emit (v : Int)
  | close
deriving DecidableEq, Repr

/-- Whether the consumer reaches the end-of-stream sentinel (the producer
closed) or the producer stopped without closing. -/
inductive Terminal where
  | eof
  | stillOpen
deriving DecidableEq, Repr

/-- What the consumer half of a channel response pair observes: the
length hint (`Length()`), the values returned by successive `Next`
calls in order, and the terminal condition. -/
structure ConsumerView where
  length : Nat
  values : List Int
  terminal : Terminal
deriving DecidableEq, Repr

/-- Modelled from the spec: the consumer view of a well-behaved producer
trace on a channel response pair (spec sections 3 and 4.3); the source
file defining `NewChanResponsePair` is not under `src/`.  `SetLength n`
records `n` (0 when never set), each `Emit` delivers its value in order,
and `Close` yields the end-of-stream sentinel for subsequent `Next`
calls. -/
def consumeAux : List EmitterOp → Nat → List Int → ConsumerView
  | [], len, acc => ⟨len, acc.reverse, Terminal.stillOpen⟩
  | EmitterOp.setLength n :: rest, _, acc => consumeAux rest n acc
  | EmitterOp.emit v :: rest, len, acc => consumeAux rest len (v :: acc)
  | EmitterOp.close :: _, len, acc => ⟨len, acc.reverse, Terminal.eof⟩

/-- The consumer view of a producer trace, starting from the fresh pair
(length hint 0, nothing emitted). -/
def consume (ops : List EmitterOp) : ConsumerView :=
  consumeAux ops 0 []

/-- Modelled from the spec: a PostRun stage on a channel pair (spec
section 4.5 and the worked example in section 8): it reads the upstream
length, advertises `length + k` downstream, re-emits `f v` for every
upstream value in order, and closes downstream. -/
def postRunStage (f : Int → Int) (k : Nat) (upstream : List EmitterOp) :
    List EmitterOp :=
  let u := consume upstream
  EmitterOp.setLength (u.length + k) ::
    (u.values.map (fun v => EmitterOp.emit (f v)) ++ [EmitterOp.close])

/-- The state of a channel response pair that the cancellation law
observes: whether the request context has been cancelled and whether the
producer has closed. -/
structure ChanPairState where
  ctxCancelled : Bool
  closed : Bool
deriving DecidableEq, Repr

/-- Result of a producer `Emit` on a channel pair. -/
inductive EmitResult where
  | delivered
  | contextCanceled
  | alreadyClosed
deriving DecidableEq, Repr

/-- Result of a consumer `Next` on a channel pair. -/
inductive NextResult where
  | contextCanceled
  | eof
  | wouldBlock
deriving DecidableEq, Repr

/-- Modelled from the spec: `Emit` on the producer half of a channel pair
(spec sections 4.3 and 5); the source file defining the pair is not under
`src/`.  A cancelled request context makes `Emit` return the cancellation
sentinel (`context.Canceled`); an emit after close is an error; otherwise
the value is handed to the consumer. -/
def chanEmit (st : ChanPairState) (_v : String) : EmitResult :=
  if st.ctxCancelled then EmitResult.contextCanceled
  else if st.closed then EmitResult.alreadyClosed
  else EmitResult.delivered

/-- Modelled from the spec: `Next` on the consumer half of a channel pair
(spec sections 3 and 5); the source file defining the pair is not under
`src/`.  A cancelled request context makes `Next` return the same
cancellation sentinel; after a close it returns end-of-stream; otherwise
it blocks waiting for a value. -/
def chanNext (st : ChanPairState) : NextResult :=
  if st.ctxCancelled then NextResult.contextCanceled
  else if st.closed then NextResult.eof
  else NextResult.wouldBlock

end CmdsModel

section Helpers

open Cmds

/-- `Execute` under the callable and argument checks: the remaining steps. -/
lemma Execute_eq (pd : String → Option Int) (ge : EncodingType → Bool)
    (req : Request) (re : Emitter) (hRun : req.command.hasRun = true)
    (hArgs : req.command.checkArgumentsErr = none) :
    Execute pd ge req re =
      timeoutPhase pd req.command re
        (if re.isEncodingEmitter then
          some (selectEncoder req.command.encoders ge (GetEncoding req))
        else none)
        (lookupStr req.options TimeoutOpt) := by
  unfold Execute
  rw [hRun, hArgs]
  rfl

lemma runPhase_closes (cmd : Command) (re : Emitter)
    (es : Option ChosenEncoder) : (runPhase cmd re es).2.closes = 1 := by
  unfold runPhase
  cases cmd.runBehavior <;> cases (effectiveEmitter cmd re).emitResult <;> rfl

lemma runPhase_encoderSet (cmd : Command) (re : Emitter)
    (es : Option ChosenEncoder) : (runPhase cmd re es).2.encoderSet = es := by
  unfold runPhase
  cases cmd.runBehavior <;> cases (effectiveEmitter cmd re).emitResult <;> rfl

lemma preRunPhase_closes (cmd : Command) (re : Emitter)
    (es : Option ChosenEncoder) (h : preRunStepOk cmd = true) :
    (preRunPhase cmd re es).2.closes = 1 := by
  unfold preRunPhase
  unfold preRunStepOk at h
  cases hp : cmd.hasPreRun with
  | false => cases cmd.preRunErr <;> exact runPhase_closes cmd re es
  | true =>
    rw [hp] at h
    simp only [Bool.not_true, Bool.false_or, Option.isNone_iff_eq_none] at h
    rw [h]
    exact runPhase_closes cmd re es

lemma preRunPhase_encoderSet (cmd : Command) (re : Emitter)
    (es : Option ChosenEncoder) : (preRunPhase cmd re es).2.encoderSet = es := by
  unfold preRunPhase
  cases cmd.hasPreRun <;> cases cmd.preRunErr <;>
    first
      | rfl
      | exact runPhase_encoderSet cmd re es

end Helpers

namespace Fixtures

/-- A duration parser fixture: `"30s"` parses, everything else fails. -/
def pdFix : String → Option Int := fun s => if s = "30s" then some 30 else none

/-- A global-encoder-table fixture containing `json` and `text`. -/
def geFix : Cmds.EncodingType → Bool := fun t => t = Cmds.JSON || t = Cmds.Text

/-- A plain callable command: `Run` returns normally, no hooks, no
encoders. -/
def cmdFix : Cmds.Command :=
  { hasRun := true, runBehavior := Cmds.RunBehavior.normal,
    checkArgumentsErr := none, encoders := fun _ => false,
    hasPreRun := false, preRunErr := none, postRun := [] }

/-- A non-encoding emitter whose `Emit` succeeds. -/
def reFix : Cmds.Emitter :=
  { isEncodingEmitter := false, emitResult := none, typeName := "chanEmitter" }

/-- An encoding emitter whose `Emit` succeeds. -/
def reEncFix : Cmds.Emitter :=
  { isEncodingEmitter := true, emitResult := none, typeName := "writerEmitter" }

/-- A request whose timeout option is an unparseable string. -/
def reqBadTimeout : Cmds.Request :=
  { command := cmdFix,
    options := [(Cmds.TimeoutOpt, Cmds.OptValue.str "banana")] }

/-- A request whose timeout option is a valid duration string. -/
def reqGoodTimeout : Cmds.Request :=
  { command := cmdFix,
    options := [(Cmds.TimeoutOpt, Cmds.OptValue.str "30s")] }

/-- A request whose timeout option is an integer, not a string. -/
def reqIntTimeout : Cmds.Request :=
  { command := cmdFix, options := [(Cmds.TimeoutOpt, Cmds.OptValue.int 5)] }

/-- A command whose `Run` panics with an error value. -/
def cmdPanic : Cmds.Command :=
  { cmdFix with runBehavior := Cmds.RunBehavior.panicError "boom" }

/-- A request on the panicking command. -/
def reqPanic : Cmds.Request := { command := cmdPanic, options := [] }

/-- A request with no options on the plain command. -/
def reqPlain : Cmds.Request := { command := cmdFix, options := [] }

end Fixtures

/-- C1 counterexample: a request that passes the callable and argument
checks but whose timeout option fails to parse makes `Execute` return the
parse error without ever calling `re.Close()` — the deferred `Close` is
installed only after the timeout, `PreRun` and `PostRun` steps, so this
exit path closes the emitter zero times, not once as the claim states. -/
theorem C1_counterexample :
    Fixtures.reqBadTimeout.command.hasRun = true ∧
    Fixtures.reqBadTimeout.command.checkArgumentsErr = none ∧
    (Cmds.Execute Fixtures.pdFix Fixtures.geFix Fixtures.reqBadTimeout Fixtures.reFix).1 =
      Cmds.Outcome.ret (some (Cmds.GoErr.parseDurationFailed "banana")) ∧
    (Cmds.Execute Fixtures.pdFix Fixtures.geFix Fixtures.reqBadTimeout Fixtures.reFix).2.closes = 0 := by
  decide

/-- C1 (amended): for every call to `Execute` that passes the callable
and argument checks, `re.Close()` is invoked exactly once on every exit
path that reaches the `Run` phase (normal return, error-valued panic and
re-raised panic alike); the early error returns of the timeout-parsing
and `PreRun` steps, however, return before the deferred `Close` is
installed and invoke `Close` zero times. -/
theorem C1_close_paths (pd : String → Option Int)
    (ge : Cmds.EncodingType → Bool) (req : Cmds.Request) (re : Cmds.Emitter)
    (hRun : req.command.hasRun = true)
    (hArgs : req.command.checkArgumentsErr = none) :
    (Cmds.timeoutStepOk pd req = true → Cmds.preRunStepOk req.command = true →
      (Cmds.Execute pd ge req re).2.closes = 1) ∧
    (∀ s, Cmds.lookupStr req.options Cmds.TimeoutOpt = some (Cmds.OptValue.str s) →
      pd s = none → (Cmds.Execute pd ge req re).2.closes = 0) ∧
    (∀ msg, Cmds.timeoutStepOk pd req = true → req.command.hasPreRun = true →
      req.command.preRunErr = some msg →
      (Cmds.Execute pd ge req re).2.closes = 0) := by
  rw [Execute_eq pd ge req re hRun hArgs]
  refine ⟨?_, ?_, ?_⟩
  · intro hT hP
    unfold Cmds.timeoutStepOk at hT
    cases hL : Cmds.lookupStr req.options Cmds.TimeoutOpt with
    | none =>
      simp only [Cmds.timeoutPhase]
      exact preRunPhase_closes req.command re _ hP
    | some v =>
      rw [hL] at hT
      cases v with
      | str s =>
        simp only [Cmds.timeoutPhase]
        cases hpd : pd s with
        | none => simp [hpd] at hT
        | some d =>
          simp only [Cmds.durationPhase]
          exact preRunPhase_closes req.command re _ hP
      | int n => simp at hT
      | boolV b => simp at hT
  · intro s hL hpd
    rw [hL]
    simp only [Cmds.timeoutPhase]
    rw [hpd]
    rfl
  · intro msg hT hPre hErr
    unfold Cmds.timeoutStepOk at hT
    have hpre : (Cmds.preRunPhase req.command re
        (if re.isEncodingEmitter = true then
          some (Cmds.selectEncoder req.command.encoders ge (Cmds.GetEncoding req))
        else none)).2.closes = 0 := by
      unfold Cmds.preRunPhase
      rw [hPre, hErr]
      rfl
    cases hL : Cmds.lookupStr req.options Cmds.TimeoutOpt with
    | none =>
      simp only [Cmds.timeoutPhase]
      exact hpre
    | some v =>
      rw [hL] at hT
      cases v with
      | str s =>
        simp only [Cmds.timeoutPhase]
        cases hpd : pd s with
        | none => simp [hpd] at hT
        | some d =>
          simp only [Cmds.durationPhase]
          exact hpre
      | int n => simp at hT
      | boolV b => simp at hT

/-- C1 witness: on a request with a valid timeout string and no hooks,
`Execute` closes the emitter exactly once. -/
theorem C1_witness :
    (Cmds.Execute Fixtures.pdFix Fixtures.geFix Fixtures.reqGoodTimeout Fixtures.reFix).2.closes = 1 :=
  (C1_close_paths Fixtures.pdFix Fixtures.geFix Fixtures.reqGoodTimeout Fixtures.reFix
    (by decide) (by decide)).1 (by decide) (by decide)

section Helpers2

open Cmds

lemma preRunPhase_eq_runPhase (cmd : Command) (re : Emitter)
    (es : Option ChosenEncoder) (h : preRunStepOk cmd = true) :
    preRunPhase cmd re es = runPhase cmd re es := by
  unfold preRunPhase
  unfold preRunStepOk at h
  cases hp : cmd.hasPreRun with
  | false => cases cmd.preRunErr <;> rfl
  | true =>
    rw [hp] at h
    simp only [Bool.not_true, Bool.false_or, Option.isNone_iff_eq_none] at h
    rw [h]
    rfl

/-- When the timeout and `PreRun` steps pass, `Execute` reduces to the
`Run` phase with the selected encoder recorded. -/
lemma Execute_eq_runPhase (pd : String → Option Int) (ge : EncodingType → Bool)
    (req : Request) (re : Emitter) (hRun : req.command.hasRun = true)
    (hArgs : req.command.checkArgumentsErr = none)
    (hT : timeoutStepOk pd req = true) (hP : preRunStepOk req.command = true) :
    Execute pd ge req re = runPhase req.command re
      (if re.isEncodingEmitter then
        some (selectEncoder req.command.encoders ge (GetEncoding req))
      else none) := by
  rw [Execute_eq pd ge req re hRun hArgs]
  unfold timeoutStepOk at hT
  cases hL : lookupStr req.options TimeoutOpt with
  | none =>
    simp only [timeoutPhase]
    exact preRunPhase_eq_runPhase req.command re _ hP
  | some v =>
    rw [hL] at hT
    cases v with
    | str s =>
      simp only [timeoutPhase]
      cases hpd : pd s with
      | none => simp [hpd] at hT
      | some d =>
        simp only [durationPhase]
        exact preRunPhase_eq_runPhase req.command re _ hP
    | int n => simp at hT
    | boolV b => simp at hT

lemma timeoutPhase_encoderSet (pd : String → Option Int) (cmd : Command)
    (re : Emitter) (es : Option ChosenEncoder) (ov : Option OptValue) :
    (timeoutPhase pd cmd re es ov).2.encoderSet = es := by
  cases ov with
  | none => exact preRunPhase_encoderSet cmd re es
  | some v =>
    cases v with
    | str s =>
      simp only [timeoutPhase]
      cases pd s with
      | none => rfl
      | some d => exact preRunPhase_encoderSet cmd re es
    | int n => rfl
    | boolV b => rfl

end Helpers2

/-- C3 counterexample: on a command whose `Run` panics with the error
`boom` and an emitter whose `Emit` succeeds, `Execute` does emit the
structured error `{boom, Normal}` but returns nil — not the recovered
error as the claim states — because the panic guard assigns
`err = re.Emit(...)`, overwriting the recovered error with the `Emit`
result. -/
theorem C3_counterexample :
    Fixtures.reqPanic.command.runBehavior = Cmds.RunBehavior.panicError "boom" ∧
    (Cmds.Execute Fixtures.pdFix Fixtures.geFix Fixtures.reqPanic Fixtures.reFix).2.emitted =
      [⟨"boom", Cmds.ErrNormal⟩] ∧
    (Cmds.Execute Fixtures.pdFix Fixtures.geFix Fixtures.reqPanic Fixtures.reFix).1 =
      Cmds.Outcome.ret none := by
  decide

/-- C3 (amended): when `Run` panics with an error value, `Execute` emits
it into the response emitter as a structured error with the `Normal`
code, and returns the result of that `Emit` call — nil when the emit
succeeds, the emit error otherwise — rather than the recovered error
itself; when the recovered value is not an error, `Execute` re-raises
the panic. -/
theorem C3_panic_recovery (pd : String → Option Int)
    (ge : Cmds.EncodingType → Bool) (req : Cmds.Request) (re : Cmds.Emitter)
    (hRun : req.command.hasRun = true)
    (hArgs : req.command.checkArgumentsErr = none)
    (hT : Cmds.timeoutStepOk pd req = true)
    (hP : Cmds.preRunStepOk req.command = true) :
    (∀ msg, req.command.runBehavior = Cmds.RunBehavior.panicError msg →
      (Cmds.Execute pd ge req re).2.emitted = [⟨msg, Cmds.ErrNormal⟩] ∧
      (Cmds.Execute pd ge req re).1 =
        (match (Cmds.effectiveEmitter req.command re).emitResult with
        | none => Cmds.Outcome.ret none
        | some e => Cmds.Outcome.ret (some (Cmds.GoErr.emitFailed e)))) ∧
    (req.command.runBehavior = Cmds.RunBehavior.panicOther →
      (Cmds.Execute pd ge req re).1 = Cmds.Outcome.panicReraised) := by
  rw [Execute_eq_runPhase pd ge req re hRun hArgs hT hP]
  unfold Cmds.runPhase
  constructor
  · intro msg hb
    rw [hb]
    cases he : (Cmds.effectiveEmitter req.command re).emitResult <;> exact ⟨rfl, rfl⟩
  · intro hb
    rw [hb]
    rfl

/-- C3 witness: the panicking fixture command makes `Execute` emit the
structured error `{boom, Normal}`. -/
theorem C3_witness :
    (Cmds.Execute Fixtures.pdFix Fixtures.geFix Fixtures.reqPanic Fixtures.reFix).2.emitted =
      [⟨"boom", Cmds.ErrNormal⟩] :=
  ((C3_panic_recovery Fixtures.pdFix Fixtures.geFix Fixtures.reqPanic Fixtures.reFix
      (by decide) (by decide) (by decide) (by decide)).1 "boom" (by decide)).1

/-- Definition following the words of claim C4: if the requested tag is
`Text` and the command has no `Text` encoder, the tag is changed to
`JSON`; then the installed encoder is the command's own encoder for the
tag if one exists, else the global encoder for the tag if one exists,
else the global JSON encoder. -/
def encoderSpecC4 (cmdEncoders globalEncoders : Cmds.EncodingType → Bool)
    (tag : Cmds.EncodingType) : Cmds.ChosenEncoder :=
  let tag2 := if tag = Cmds.Text && !cmdEncoders Cmds.Text then Cmds.JSON else tag
  if cmdEncoders tag2 then Cmds.ChosenEncoder.fromCommand tag2
  else if globalEncoders tag2 then Cmds.ChosenEncoder.fromGlobal tag2
  else Cmds.ChosenEncoder.globalJSON

lemma selectEncoder_eq_spec (cE gE : Cmds.EncodingType → Bool)
    (t : Cmds.EncodingType) :
    Cmds.selectEncoder cE gE t = encoderSpecC4 cE gE t := by
  unfold Cmds.selectEncoder encoderSpecC4
  by_cases h : t = Cmds.Text
  · subst h; rfl
  · simp [h]

/-- C4: whenever the emitter has the encoder-swap capability and the
callable and argument checks pass, the encoder `Execute` installs is
exactly the one described by the claim (`Text` upgraded to `JSON` when
the command lacks a `Text` encoder, then command table, then global
table, then global JSON fallback). -/
theorem C4_encoder_selection (pd : String → Option Int)
    (ge : Cmds.EncodingType → Bool) (req : Cmds.Request) (re : Cmds.Emitter)
    (hRun : req.command.hasRun = true)
    (hArgs : req.command.checkArgumentsErr = none)
    (hEnc : re.isEncodingEmitter = true) :
    (Cmds.Execute pd ge req re).2.encoderSet =
      some (encoderSpecC4 req.command.encoders ge (Cmds.GetEncoding req)) := by
  rw [Execute_eq pd ge req re hRun hArgs, timeoutPhase_encoderSet, hEnc]
  simp [selectEncoder_eq_spec]

/-- C4 witness: on an encoding emitter and a plain command, the installed
encoder matches the claim's description. -/
theorem C4_witness :
    (Cmds.Execute Fixtures.pdFix Fixtures.geFix Fixtures.reqPlain Fixtures.reEncFix).2.encoderSet =
      some (encoderSpecC4 Fixtures.reqPlain.command.encoders Fixtures.geFix
        (Cmds.GetEncoding Fixtures.reqPlain)) :=
  C4_encoder_selection Fixtures.pdFix Fixtures.geFix Fixtures.reqPlain Fixtures.reEncFix
    rfl rfl rfl

/-- C10: a present timeout option whose value is not a string makes
`Execute` panic through the unchecked `timeoutStr.(string)` type
assertion instead of returning an error; the parse-and-return-error
behaviour only happens when the value is a string. -/
theorem C10_timeout_type_assertion (pd : String → Option Int)
    (ge : Cmds.EncodingType → Bool) :
    (∀ (req : Cmds.Request) (re : Cmds.Emitter) (v : Cmds.OptValue),
      req.command.hasRun = true → req.command.checkArgumentsErr = none →
      Cmds.lookupStr req.options Cmds.TimeoutOpt = some v →
      (∀ s, v ≠ Cmds.OptValue.str s) →
      (Cmds.Execute pd ge req re).1 = Cmds.Outcome.panicAssertString) ∧
    (∀ (req : Cmds.Request) (re : Cmds.Emitter) (s : String),
      req.command.hasRun = true → req.command.checkArgumentsErr = none →
      Cmds.lookupStr req.options Cmds.TimeoutOpt = some (Cmds.OptValue.str s) →
      pd s = none →
      (Cmds.Execute pd ge req re).1 =
        Cmds.Outcome.ret (some (Cmds.GoErr.parseDurationFailed s))) := by
  constructor
  · intro req re v hRun hArgs hL hv
    rw [Execute_eq pd ge req re hRun hArgs, hL]
    cases v with
    | str s => exact absurd rfl (hv s)
    | int n => rfl
    | boolV b => rfl
  · intro req re s hRun hArgs hL hpd
    rw [Execute_eq pd ge req re hRun hArgs, hL]
    simp only [Cmds.timeoutPhase]
    rw [hpd]
    rfl

/-- C10 witness: a timeout option bound to the integer 5 panics the
executor. -/
theorem C10_witness :
    (Cmds.Execute Fixtures.pdFix Fixtures.geFix Fixtures.reqIntTimeout Fixtures.reFix).1 =
      Cmds.Outcome.panicAssertString :=
  (C10_timeout_type_assertion Fixtures.pdFix Fixtures.geFix).1 Fixtures.reqIntTimeout
    Fixtures.reFix (Cmds.OptValue.int 5) rfl rfl (by decide) (fun _ h => nomatch h)

namespace Fixtures

/-- A CORS configuration allowing a single origin. -/
def cfgCors : CmdsHttp.ServerConfig :=
  { allowedOrigins := ["https://good.example"], headers := [] }

/-- A browserless request: empty Origin and Referer, parseable. -/
def reqHttpPlain : CmdsHttp.HttpRequest :=
  { origin := "", referer := "", refererURL := none, parseRequestOk := true }

/-- A request from an origin that is not allowed. -/
def reqHttpEvil : CmdsHttp.HttpRequest :=
  { origin := "https://evil.example", referer := "", refererURL := none,
    parseRequestOk := true }

/-- A permissive configuration with a user header map containing both an
ordinary header and a CORS-owned one. -/
def cfgHdr : CmdsHttp.ServerConfig :=
  { allowedOrigins := ["*"],
    headers := [("Server", ["go-ipfs"]), (CmdsHttp.ACAOrigin, ["https://a.example"])] }

end Fixtures

/-- C2: contrary to the claim, `ServeHTTP` never installs a context
derived from the environment on the request, nor a fresh cancellable one:
`ctx, cancel := context.WithCancel(...)` inside the `if` block declares a
new `ctx` shadowing the outer variable, so the derived context exists
only in the inner scope and the `ctx` later assigned to `req.Context`
stays the nil zero value in both environment cases. -/
theorem C2_context_never_installed :
    CmdsHttp.serveHTTP true Fixtures.cfgCors Fixtures.reqHttpPlain =
      CmdsHttp.ServeResult.dispatched [] CmdsHttp.CtxVal.goNil ∧
    CmdsHttp.serveHTTP false Fixtures.cfgCors Fixtures.reqHttpPlain =
      CmdsHttp.ServeResult.dispatched [] CmdsHttp.CtxVal.goNil ∧
    (CmdsHttp.serveHTTPCtxSetup true).innerCtx = some CmdsHttp.CtxVal.derivedFromEnv ∧
    (CmdsHttp.serveHTTPCtxSetup true).outerCtx = CmdsHttp.CtxVal.goNil ∧
    (CmdsHttp.serveHTTPCtxSetup false).outerCtx = CmdsHttp.CtxVal.goNil := by
  decide

/-- C6: a non-empty Origin header not matched by the allowed-origin list
(where the wildcard matches anything), or a non-empty Referer whose
scheme+host is not matched, makes the handler answer 403 Forbidden
without parsing or dispatching the request; a request with empty Origin
and empty Referer always passes this check. -/
theorem C6_forbidden_check (env : Bool) (cfg : CmdsHttp.ServerConfig)
    (r : CmdsHttp.HttpRequest) :
    (r.origin ≠ "" →
      cfg.allowedOrigins.any (fun o => o = "*" || o = r.origin) = false →
      CmdsHttp.serveHTTP env cfg r = CmdsHttp.ServeResult.forbidden) ∧
    (∀ scheme host, r.referer ≠ "" → r.refererURL = some (scheme, host) →
      cfg.allowedOrigins.any (fun o => o = "*" || o = scheme ++ "://" ++ host) = false →
      CmdsHttp.serveHTTP env cfg r = CmdsHttp.ServeResult.forbidden) ∧
    (r.origin = "" → r.referer = "" →
      CmdsHttp.serveHTTP env cfg r ≠ CmdsHttp.ServeResult.forbidden) := by
  refine ⟨?_, ?_, ?_⟩
  · intro ho ha
    have hfa : CmdsHttp.allowOrigin r.origin cfg = false := by
      unfold CmdsHttp.allowOrigin
      rw [if_neg ho]
      exact ha
    simp [CmdsHttp.serveHTTP, hfa]
  · intro scheme host hr hurl ha
    have hfr : CmdsHttp.allowReferer r.referer r.refererURL cfg = false := by
      unfold CmdsHttp.allowReferer
      rw [if_neg hr, hurl]
      exact ha
    simp [CmdsHttp.serveHTTP, hfr]
  · intro ho hr
    have h1 : CmdsHttp.allowOrigin r.origin cfg = true := by
      unfold CmdsHttp.allowOrigin
      rw [if_pos ho]
    have h2 : CmdsHttp.allowReferer r.referer r.refererURL cfg = true := by
      unfold CmdsHttp.allowReferer
      rw [if_pos hr]
    simp only [CmdsHttp.serveHTTP, h1, h2, Bool.and_self, Bool.not_true,
      Bool.false_eq_true, if_false]
    cases r.parseRequestOk <;> simp

/-- C6 witness: `Origin: https://evil.example` against allowed origins
`["https://good.example"]` yields 403 without dispatch. -/
theorem C6_witness :
    CmdsHttp.serveHTTP true Fixtures.cfgCors Fixtures.reqHttpEvil =
      CmdsHttp.ServeResult.forbidden :=
  (C6_forbidden_check true Fixtures.cfgCors Fixtures.reqHttpEvil).1
    (by decide) (by decide)

lemma skipAPIHeader_eq_true_iff (k : String) :
    CmdsHttp.skipAPIHeader k = true ↔
      (k = CmdsHttp.ACAOrigin ∨ k = CmdsHttp.ACAMethods ∨ k = CmdsHttp.ACACredentials) := by
  unfold CmdsHttp.skipAPIHeader
  by_cases h1 : k = CmdsHttp.ACAOrigin <;> by_cases h2 : k = CmdsHttp.ACAMethods <;>
    by_cases h3 : k = CmdsHttp.ACACredentials <;> simp [h1, h2, h3]

/-- C9: on the dispatch path, every entry of the user-supplied header map
is written to the response except those whose key is one of
`Access-Control-Allow-Origin`, `Access-Control-Allow-Methods` and
`Access-Control-Allow-Credentials`, which are never copied. -/
theorem C9_user_headers (env : Bool) (cfg : CmdsHttp.ServerConfig)
    (r : CmdsHttp.HttpRequest)
    (hAllow : (CmdsHttp.allowOrigin r.origin cfg &&
      CmdsHttp.allowReferer r.referer r.refererURL cfg) = true)
    (hParse : r.parseRequestOk = true) :
    ∃ written ctx,
      CmdsHttp.serveHTTP env cfg r = CmdsHttp.ServeResult.dispatched written ctx ∧
      (∀ (k : String) (v : List String), (k, v) ∈ cfg.headers →
        ((k, v) ∈ written ↔
          ¬(k = CmdsHttp.ACAOrigin ∨ k = CmdsHttp.ACAMethods ∨ k = CmdsHttp.ACACredentials))) ∧
      (∀ (k : String) (v : List String), (k, v) ∈ written → (k, v) ∈ cfg.headers) := by
  refine ⟨cfg.headers.filter (fun kv => !CmdsHttp.skipAPIHeader kv.1),
    (CmdsHttp.serveHTTPCtxSetup env).outerCtx, ?_, ?_, ?_⟩
  · unfold CmdsHttp.serveHTTP
    rw [hAllow, hParse]
    rfl
  · intro k v hm
    simp only [List.mem_filter, hm, true_and, Bool.not_eq_true']
    rw [Bool.eq_false_iff]
    exact not_congr (skipAPIHeader_eq_true_iff k)
  · intro k v hm
    exact (List.mem_filter.mp hm).1

/-- C9 witness: with a user header map containing `Server` and
`Access-Control-Allow-Origin`, only the former is written. -/
theorem C9_witness :
    ∃ written ctx,
      CmdsHttp.serveHTTP true Fixtures.cfgHdr Fixtures.reqHttpPlain =
        CmdsHttp.ServeResult.dispatched written ctx ∧
      (∀ (k : String) (v : List String), (k, v) ∈ Fixtures.cfgHdr.headers →
        ((k, v) ∈ written ↔
          ¬(k = CmdsHttp.ACAOrigin ∨ k = CmdsHttp.ACAMethods ∨ k = CmdsHttp.ACACredentials))) ∧
      (∀ (k : String) (v : List String), (k, v) ∈ written →
        (k, v) ∈ Fixtures.cfgHdr.headers) :=
  C9_user_headers true Fixtures.cfgHdr Fixtures.reqHttpPlain (by decide) (by decide)

namespace Fixtures

/-- The option declarations of the test command: `int b/beep` and
`string B/boop` (primary name first). -/
def declsC5 : List CmdsModel.OptionDecl :=
  [⟨["b", "beep"], CmdsModel.OptType.intT⟩, ⟨["B", "boop"], CmdsModel.OptType.stringT⟩]

end Fixtures

lemma convertOptions_ok (decls : List CmdsModel.OptionDecl) :
    ∀ opts : List (String × Cmds.OptValue),
      (∀ (k : String) (v : Cmds.OptValue), (k, v) ∈ opts →
        ∀ d, CmdsModel.findOptionDecl decls k = some d →
          (CmdsModel.convertValue d.type v).isSome = true) →
      ∃ res, CmdsModel.convertOptions decls opts = some res ∧
        ∀ (k : String) (v : Cmds.OptValue), (k, v) ∈ opts →
          CmdsModel.findOptionDecl decls k = none → (k, v) ∈ res := by
  intro opts
  induction opts with
  | nil =>
    intro _
    exact ⟨[], rfl, fun k v hm => absurd hm (List.not_mem_nil _)⟩
  | cons kv rest ih =>
    intro h
    obtain ⟨k, v⟩ := kv
    obtain ⟨res, hres, hmem⟩ :=
      ih (fun k2 v2 hm d hd => h k2 v2 (List.mem_cons_of_mem _ hm) d hd)
    cases hf : CmdsModel.findOptionDecl decls k with
    | none =>
      have hconv : CmdsModel.convertOptions decls ((k, v) :: rest) =
          some ((k, v) :: res) := by
        simp [CmdsModel.convertOptions, CmdsModel.convertEntry, hf, hres]
      refine ⟨(k, v) :: res, hconv, ?_⟩
      intro k3 v3 hm hnone
      rcases List.mem_cons.mp hm with heq | hm2
      · rw [heq]; exact List.mem_cons_self _ _
      · exact List.mem_cons_of_mem _ (hmem k3 v3 hm2 hnone)
    | some d =>
      have hv := h k v (List.mem_cons_self _ _) d hf
      obtain ⟨v2, hcv⟩ := Option.isSome_iff_exists.mp hv
      have hconv : CmdsModel.convertOptions decls ((k, v) :: rest) =
          some ((d.names.headD k, v2) :: res) := by
        simp [CmdsModel.convertOptions, CmdsModel.convertEntry, hf, hcv, hres]
      refine ⟨(d.names.headD k, v2) :: res, hconv, ?_⟩
      intro k3 v3 hm hnone
      rcases List.mem_cons.mp hm with heq | hm2
      · injection heq with h1 h2
        rw [h1, hf] at hnone
        cases hnone
      · exact List.mem_cons_of_mem _ (hmem k3 v3 hm2 hnone)

/-- C5: for the test command declaring the integer option `b/beep`, an
integer value and a base-10 numeric string construct successfully, while
a boolean value and a non-numeric string fail construction; and, for any
declarations and any options map, keys matching no declared name or
alias never cause construction to fail and remain in the resulting
options map. -/
theorem C5_option_validation :
    CmdsModel.convertOptions Fixtures.declsC5 [("beep", Cmds.OptValue.int 5)] =
      some [("b", Cmds.OptValue.int 5)] ∧
    CmdsModel.convertOptions Fixtures.declsC5 [("b", Cmds.OptValue.str "100")] =
      some [("b", Cmds.OptValue.int 100)] ∧
    CmdsModel.convertOptions Fixtures.declsC5 [("beep", Cmds.OptValue.boolV true)] = none ∧
    CmdsModel.convertOptions Fixtures.declsC5 [("b", Cmds.OptValue.str ":)")] = none ∧
    (∀ (decls : List CmdsModel.OptionDecl) (opts : List (String × Cmds.OptValue)),
      (∀ (k : String) (v : Cmds.OptValue), (k, v) ∈ opts →
        ∀ d, CmdsModel.findOptionDecl decls k = some d →
          (CmdsModel.convertValue d.type v).isSome = true) →
      ∃ res, CmdsModel.convertOptions decls opts = some res ∧
        ∀ (k : String) (v : Cmds.OptValue), (k, v) ∈ opts →
          CmdsModel.findOptionDecl decls k = none → (k, v) ∈ res) :=
  ⟨by decide, by decide, by decide, by decide, convertOptions_ok⟩

/-- C5 witness: the unrecognized key `foo` does not fail construction
and survives into the resulting options map. -/
theorem C5_witness :
    ∃ res,
      CmdsModel.convertOptions Fixtures.declsC5 [("foo", Cmds.OptValue.int 5)] = some res ∧
      ∀ (k : String) (v : Cmds.OptValue), (k, v) ∈ [("foo", Cmds.OptValue.int 5)] →
        CmdsModel.findOptionDecl Fixtures.declsC5 k = none → (k, v) ∈ res :=
  C5_option_validation.2.2.2.2 Fixtures.declsC5 [("foo", Cmds.OptValue.int 5)]
    (by
      intro k v hm d hd
      rcases List.mem_singleton.mp hm with heq
      injection heq with h1 h2
      rw [h1] at hd
      rw [show CmdsModel.findOptionDecl Fixtures.declsC5 "foo" = none from by decide] at hd
      cases hd)

lemma consumeAux_map_emit (xs : List Int) (len : Nat) (acc : List Int) :
    CmdsModel.consumeAux (xs.map CmdsModel.EmitterOp.emit ++ [CmdsModel.EmitterOp.close])
        len acc =
      ⟨len, acc.reverse ++ xs, CmdsModel.Terminal.eof⟩ := by
  induction xs generalizing acc with
  | nil =>
    have step : CmdsModel.consumeAux
        (([] : List Int).map CmdsModel.EmitterOp.emit ++ [CmdsModel.EmitterOp.close]) len acc =
        ⟨len, acc.reverse, CmdsModel.Terminal.eof⟩ := rfl
    rw [step]
    simp
  | cons x xs ih =>
    have step : CmdsModel.consumeAux
        ((x :: xs).map CmdsModel.EmitterOp.emit ++ [CmdsModel.EmitterOp.close]) len acc =
        CmdsModel.consumeAux
          (xs.map CmdsModel.EmitterOp.emit ++ [CmdsModel.EmitterOp.close]) len (x :: acc) := rfl
    rw [step, ih]
    simp

/-- C7: a PostRun stage that re-emits `f v` for each upstream value and
advertises length `L + k` yields a downstream consumer observing length
`L + k`, then the mapped values in order, then end-of-stream; in
particular, for upstream length 3 and values `[7]`, doubling with `k = 1`
gives length 4, value 14, then end-of-stream. -/
theorem C7_postrun_composition (f : Int → Int) (k : Nat)
    (ops : List CmdsModel.EmitterOp) (L : Nat) (vs : List Int)
    (h : CmdsModel.consume ops = ⟨L, vs, CmdsModel.Terminal.eof⟩) :
    CmdsModel.consume (CmdsModel.postRunStage f k ops) =
      ⟨L + k, vs.map f, CmdsModel.Terminal.eof⟩ ∧
    CmdsModel.consume (CmdsModel.postRunStage (fun v => 2 * v) 1
        [CmdsModel.EmitterOp.setLength 3, CmdsModel.EmitterOp.emit 7,
          CmdsModel.EmitterOp.close]) =
      ⟨4, [14], CmdsModel.Terminal.eof⟩ := by
  constructor
  · simp only [CmdsModel.postRunStage]
    rw [h]
    show CmdsModel.consumeAux
        (vs.map (fun v => CmdsModel.EmitterOp.emit (f v)) ++ [CmdsModel.EmitterOp.close])
        (L + k) ([] : List Int) =
      ⟨L + k, vs.map f, CmdsModel.Terminal.eof⟩
    have hmm : vs.map (fun v => CmdsModel.EmitterOp.emit (f v)) =
        (vs.map f).map CmdsModel.EmitterOp.emit := by
      rw [List.map_map]
      rfl
    rw [hmm, consumeAux_map_emit]
    simp
  · decide

/-- C7 witness: the concrete scenario of the claim — upstream
`SetLength 3; Emit 7; Close`, doubling PostRun with `k = 1` — yields
length 4, value 14, end-of-stream. -/
theorem C7_witness :
    CmdsModel.consume (CmdsModel.postRunStage (fun v => 2 * v) 1
        [CmdsModel.EmitterOp.setLength 3, CmdsModel.EmitterOp.emit 7,
          CmdsModel.EmitterOp.close]) =
      ⟨3 + 1, [7].map (fun v => 2 * v), CmdsModel.Terminal.eof⟩ :=
  (C7_postrun_composition (fun v => 2 * v) 1
    [CmdsModel.EmitterOp.setLength 3, CmdsModel.EmitterOp.emit 7,
      CmdsModel.EmitterOp.close] 3 [7] (by decide)).1

/-- C8: on a channel response pair whose request context has been
cancelled, `Emit` on the producer returns the cancellation sentinel and
`Next` on the consumer returns the same sentinel. -/
theorem C8_cancellation (st : CmdsModel.ChanPairState) (v : String)
    (h : st.ctxCancelled = true) :
    CmdsModel.chanEmit st v = CmdsModel.EmitResult.contextCanceled ∧
    CmdsModel.chanNext st = CmdsModel.NextResult.contextCanceled := by
  unfold CmdsModel.chanEmit CmdsModel.chanNext
  rw [h]
  exact ⟨rfl, rfl⟩

/-- C8 witness: a cancelled, not-yet-closed pair gives the cancellation
sentinel to `Emit "abc"` and to `Next`. -/
theorem C8_witness :
    CmdsModel.chanEmit ⟨true, false⟩ "abc" = CmdsModel.EmitResult.contextCanceled ∧
    CmdsModel.chanNext ⟨true, false⟩ = CmdsModel.NextResult.contextCanceled :=
  C8_cancellation ⟨true, false⟩ "abc" rfl
